import Mathlib

/-!
# Verification of the SentryOS hackathon desktop/chat subsystem

Shallow embedding of:
* the window-manager state machine (`src/components/desktop/WindowManager.tsx`),
* the chat relay endpoint (`POST` handler, `src/unnamed/part_001`),
* the chat client stream consumer (`handleSubmit`, `src/unnamed/part_000`),
followed by theorems settling the specification claims about them.
-/

namespace SentryOS

/-! ## Window manager (WindowManager.tsx)

`WindowState` mirrors the record used throughout `WindowManager.tsx` and
`Desktop.tsx`.  The `types.ts` file that declares the interface is not part of
the sources; its fields are modelled from the spec (§3 "Window record:
identifier, title, icon glyph, geometry (x, y, width, height, minimum
width/height), minimized flag, maximized flag, focused flag, stacking index,
opaque content payload") and match every field accessed in the sources.
The opaque React content payload is modelled as a `String`. -/

structure WindowState where
  id : String
  title : String
  icon : String
  x : Int
  y : Int
  width : Int
  height : Int
  minWidth : Int
  minHeight : Int
  isMinimized : Bool
  isMaximized : Bool
  content : String
  isFocused : Bool
  zIndex : Nat
  deriving DecidableEq, Repr

/-- The argument of `openWindow`: `Omit<WindowState, 'zIndex' | 'isFocused'>`. -/
structure WindowOpen where
  id : String
  title : String
  icon : String
  x : Int
  y : Int
  width : Int
  height : Int
  minWidth : Int
  minHeight : Int
  isMinimized : Bool
  isMaximized : Bool
  content : String
  deriving DecidableEq, Repr

/-- Promote an `openWindow` payload to a full record with the given stacking
index and focus flag (the spread `{ ...window, zIndex: newZ, isFocused: true }`). -/
def WindowOpen.toState (w : WindowOpen) (z : Nat) (f : Bool) : WindowState :=
  { id := w.id, title := w.title, icon := w.icon, x := w.x, y := w.y,
    width := w.width, height := w.height, minWidth := w.minWidth,
    minHeight := w.minHeight, isMinimized := w.isMinimized,
    isMaximized := w.isMaximized, content := w.content,
    isFocused := f, zIndex := z }

/-- The state owned by `WindowManagerProvider`: the `windows` registry and the
`topZIndex` counter. -/
structure ManagerState where
  windows : List WindowState
  topZIndex : Nat
  deriving DecidableEq, Repr

/-- `useState<WindowState[]>([])` and `useState(100)`. -/
def initialState : ManagerState := { windows := [], topZIndex := 100 }

/-- `openWindow` (WindowManager.tsx lines 34-73): bump `topZIndex`; if a window
with the same id exists, re-focus it (clearing `isMinimized` when it was
minimized) and unfocus the rest; otherwise unfocus everything and append the
new record with the fresh stacking index. -/
def openWindow (w : WindowOpen) (s : ManagerState) : ManagerState :=
  let newZ := s.topZIndex + 1
  match s.windows.find? (fun x => x.id == w.id) with
  | some existing =>
    if existing.isMinimized then
      { windows := s.windows.map (fun x =>
          if x.id = w.id then
            { x with isMinimized := false, isFocused := true, zIndex := newZ }
          else
            { x with isFocused := false }),
        topZIndex := newZ }
    else
      { windows := s.windows.map (fun x =>
          if x.id = w.id then
            { x with isFocused := true, zIndex := newZ }
          else
            { x with isFocused := false }),
        topZIndex := newZ }
  | none =>
    { windows := s.windows.map (fun x => { x with isFocused := false })
        ++ [w.toState newZ true],
      topZIndex := newZ }

/-- `closeWindow` (lines 75-88): drop every record whose id matches. -/
def closeWindow (id : String) (s : ManagerState) : ManagerState :=
  { s with windows := s.windows.filter (fun w => w.id != id) }

/-- `minimizeWindow` (lines 90-99). -/
def minimizeWindow (id : String) (s : ManagerState) : ManagerState :=
  { s with windows := s.windows.map (fun w =>
      if w.id = id then { w with isMinimized := true, isFocused := false } else w) }

/-- `maximizeWindow` (lines 101-117): toggle `isMaximized` only. -/
def maximizeWindow (id : String) (s : ManagerState) : ManagerState :=
  { s with windows := s.windows.map (fun w =>
      if w.id = id then { w with isMaximized := !w.isMaximized } else w) }

/-- `restoreWindow` (lines 119-134): bump `topZIndex`; matching record is
un-minimized, focused and raised; every other record is unfocused. -/
def restoreWindow (id : String) (s : ManagerState) : ManagerState :=
  let newZ := s.topZIndex + 1
  { windows := s.windows.map (fun w =>
      if w.id = id then
        { w with isMinimized := false, isFocused := true, zIndex := newZ }
      else
        { w with isFocused := false }),
    topZIndex := newZ }

/-- `focusWindow` (lines 136-146): bump `topZIndex`; matching record is focused
and raised; every other record is unfocused. -/
def focusWindow (id : String) (s : ManagerState) : ManagerState :=
  let newZ := s.topZIndex + 1
  { windows := s.windows.map (fun w =>
      if w.id = id then
        { w with isFocused := true, zIndex := newZ }
      else
        { w with isFocused := false }),
    topZIndex := newZ }

/-- `updateWindowPosition` (lines 148-152). -/
def updateWindowPosition (id : String) (x y : Int) (s : ManagerState) : ManagerState :=
  { s with windows := s.windows.map (fun w =>
      if w.id = id then { w with x := x, y := y } else w) }

/-- `updateWindowSize` (lines 154-158). -/
def updateWindowSize (id : String) (width height : Int) (s : ManagerState) : ManagerState :=
  { s with windows := s.windows.map (fun w =>
      if w.id = id then { w with width := width, height := height } else w) }

/-- One window-manager operation, as exposed by the provider context. -/
inductive WMOp where
  | openW (w : WindowOpen)
  | closeW (id : String)
  | minimizeW (id : String)
  | maximizeW (id : String)
  | restoreW (id : String)
  | focusW (id : String)
  | moveW (id : String) (x y : Int)
  | resizeW (id : String) (width height : Int)
  deriving DecidableEq, Repr

/-- Apply one operation to the manager state. -/
def applyOp (s : ManagerState) : WMOp → ManagerState
  | .openW w => openWindow w s
  | .closeW id => closeWindow id s
  | .minimizeW id => minimizeWindow id s
  | .maximizeW id => maximizeWindow id s
  | .restoreW id => restoreWindow id s
  | .focusW id => focusWindow id s
  | .moveW id x y => updateWindowPosition id x y s
  | .resizeW id w h => updateWindowSize id w h s

/-- Apply a sequence of operations in order. -/
def applyOps (s : ManagerState) (ops : List WMOp) : ManagerState :=
  ops.foldl applyOp s

/-! ### Registry predicates used by the claims -/

/-- At most one record has its focused flag set. -/
def atMostOneFocused (l : List WindowState) : Prop :=
  l.countP (fun w => w.isFocused) ≤ 1

instance : DecidablePred atMostOneFocused := fun l =>
  inferInstanceAs (Decidable (l.countP (fun w => w.isFocused) ≤ 1))

/-- Window identifiers are pairwise distinct. -/
def idsNodup (l : List WindowState) : Prop :=
  l.Pairwise (fun a b => a.id ≠ b.id)

instance : DecidablePred idsNodup := fun l =>
  inferInstanceAs (Decidable (l.Pairwise (fun a b : WindowState => a.id ≠ b.id)))

/-- Stacking indices are pairwise distinct. -/
def zDistinct (l : List WindowState) : Prop :=
  l.Pairwise (fun a b => a.zIndex ≠ b.zIndex)

instance : DecidablePred zDistinct := fun l =>
  inferInstanceAs (Decidable (l.Pairwise (fun a b : WindowState => a.zIndex ≠ b.zIndex)))

/-- Every stacking index is at most the given bound. -/
def zBounded (l : List WindowState) (t : Nat) : Prop :=
  ∀ w ∈ l, w.zIndex ≤ t

instance (l : List WindowState) (t : Nat) : Decidable (zBounded l t) :=
  inferInstanceAs (Decidable (∀ w ∈ l, w.zIndex ≤ t))

/-! ### Generic list helpers -/

theorem map_eq_self_of_mem {α : Type} {l : List α} {f : α → α}
    (h : ∀ a ∈ l, f a = a) : l.map f = l := by
  induction l with
  | nil => rfl
  | cons a t ih =>
    simp only [List.map_cons]
    rw [h a (by simp), ih (fun b hb => h b (by simp [hb]))]

theorem map_congr_mem {α β : Type} {l : List α} {f g : α → β}
    (h : ∀ a ∈ l, f a = g a) : l.map f = l.map g := by
  induction l with
  | nil => rfl
  | cons a t ih =>
    simp only [List.map_cons]
    rw [h a (by simp), ih (fun b hb => h b (by simp [hb]))]

theorem pairwise_imp_of_mem {α : Type} {R S : α → α → Prop} {l : List α}
    (h : ∀ a b, a ∈ l → b ∈ l → R a b → S a b) (hp : l.Pairwise R) :
    l.Pairwise S := by
  induction l with
  | nil => exact List.Pairwise.nil
  | cons a t ih =>
    rcases List.pairwise_cons.mp hp with ⟨h1, h2⟩
    refine List.pairwise_cons.mpr ⟨?_, ?_⟩
    · intro b hb
      exact h a b (by simp) (by simp [hb]) (h1 b hb)
    · exact ih (fun x y hx hy => h x y (by simp [hx]) (by simp [hy])) h2

/-! ### Invariant preservation helpers for registry maps

Shared shape: every "bump" operation (`openWindow` on an existing id,
`restoreWindow`, `focusWindow`) rewrites the registry with a map that sends the
matching record to stacking index `z` with `isFocused := true` and unfocuses
every other record; the remaining map operations preserve id, stacking index
and focus flag (or only ever clear the flag). -/

theorem idsNodup_map {l : List WindowState} {F : WindowState → WindowState}
    (hid : ∀ x, (F x).id = x.id) (h : idsNodup l) : idsNodup (l.map F) := by
  rw [idsNodup, List.pairwise_map]
  exact h.imp (fun hab => by simpa [hid] using hab)

theorem zDistinct_map_keepz {l : List WindowState} {F : WindowState → WindowState}
    (hz : ∀ x, (F x).zIndex = x.zIndex) (h : zDistinct l) : zDistinct (l.map F) := by
  rw [zDistinct, List.pairwise_map]
  exact h.imp (fun hab => by simpa [hz] using hab)

theorem zBounded_map_keepz {l : List WindowState} {F : WindowState → WindowState} {t : Nat}
    (hz : ∀ x, (F x).zIndex = x.zIndex) (h : zBounded l t) : zBounded (l.map F) t := by
  intro w hw
  rcases List.mem_map.mp hw with ⟨x, hx, rfl⟩
  rw [hz]
  exact h x hx

theorem zDistinct_map_bump {l : List WindowState} {F : WindowState → WindowState}
    {i : String} {z : Nat}
    (hzm : ∀ x, x.id = i → (F x).zIndex = z)
    (hzn : ∀ x, x.id ≠ i → (F x).zIndex = x.zIndex)
    (ht : ∀ x ∈ l, x.zIndex < z)
    (hid : idsNodup l) (hd : zDistinct l) : zDistinct (l.map F) := by
  rw [zDistinct, List.pairwise_map]
  refine pairwise_imp_of_mem (fun a b ha hb hab => ?_) (hd.and hid)
  by_cases hai : a.id = i
  · by_cases hbi : b.id = i
    · exact absurd (hai.trans hbi.symm) hab.2
    · rw [hzm a hai, hzn b hbi]
      exact fun hzb => absurd hzb.symm (Nat.ne_of_lt (ht b hb))
  · by_cases hbi : b.id = i
    · rw [hzn a hai, hzm b hbi]
      exact Nat.ne_of_lt (ht a ha)
    · rw [hzn a hai, hzn b hbi]
      exact hab.1

theorem zBounded_map_bump {l : List WindowState} {F : WindowState → WindowState}
    {i : String} {z : Nat}
    (hzm : ∀ x, x.id = i → (F x).zIndex = z)
    (hzn : ∀ x, x.id ≠ i → (F x).zIndex = x.zIndex)
    (ht : ∀ x ∈ l, x.zIndex < z) : zBounded (l.map F) z := by
  intro w hw
  rcases List.mem_map.mp hw with ⟨x, hx, rfl⟩
  by_cases hxi : x.id = i
  · rw [hzm x hxi]
  · rw [hzn x hxi]
    exact Nat.le_of_lt (ht x hx)

theorem countP_id_le_one {l : List WindowState} {i : String} (h : idsNodup l) :
    l.countP (fun x => x.id == i) ≤ 1 := by
  induction l with
  | nil => simp
  | cons a t ih =>
    rw [List.countP_cons]
    rcases List.pairwise_cons.mp h with ⟨ha, ht⟩
    by_cases hai : a.id = i
    · have hz : t.countP (fun x => x.id == i) = 0 := by
        rw [List.countP_eq_zero]
        intro x hx
        simp only [beq_eq_false_iff_ne, ne_eq, beq_iff_eq]
        exact fun hxi => (ha x hx) (hai.trans hxi.symm)
      simp [hai, hz]
    · simp [hai, ih ht]

theorem atMostOne_map_bump {l : List WindowState} {F : WindowState → WindowState}
    {i : String}
    (hfm : ∀ x, x.id = i → (F x).isFocused = true)
    (hfn : ∀ x, x.id ≠ i → (F x).isFocused = false)
    (hid : idsNodup l) : atMostOneFocused (l.map F) := by
  rw [atMostOneFocused, List.countP_map]
  have : l.countP (fun x => (F x).isFocused) = l.countP (fun x => x.id == i) := by
    apply List.countP_congr
    intro x _
    by_cases hxi : x.id = i
    · simp [hfm x hxi, hxi]
    · simp [hfn x hxi, hxi]
  rw [show ((fun w : WindowState => w.isFocused) ∘ F) = fun x => (F x).isFocused from rfl]
  rw [this]
  exact countP_id_le_one hid

theorem atMostOne_map_mono {l : List WindowState} {F : WindowState → WindowState}
    (hfoc : ∀ x, (F x).isFocused = true → x.isFocused = true)
    (h : atMostOneFocused l) : atMostOneFocused (l.map F) := by
  rw [atMostOneFocused, List.countP_map]
  refine Nat.le_trans (List.countP_mono_left ?_) h
  intro x _ hx
  exact hfoc x hx

/-! ### Per-operation invariant preservation -/

theorem applyOp_inv (s : ManagerState) (op : WMOp) (h1 : idsNodup s.windows) :
    idsNodup (applyOp s op).windows
    ∧ (atMostOneFocused s.windows → atMostOneFocused (applyOp s op).windows)
    ∧ (zDistinct s.windows → zBounded s.windows s.topZIndex →
        zDistinct (applyOp s op).windows
        ∧ zBounded (applyOp s op).windows (applyOp s op).topZIndex) := by
  have hbump :
      ∀ (F : WindowState → WindowState) (i : String),
        (∀ x, (F x).id = x.id) →
        (∀ x, x.id = i → (F x).zIndex = s.topZIndex + 1) →
        (∀ x, x.id ≠ i → (F x).zIndex = x.zIndex) →
        (∀ x, x.id = i → (F x).isFocused = true) →
        (∀ x, x.id ≠ i → (F x).isFocused = false) →
        idsNodup (s.windows.map F)
        ∧ (atMostOneFocused s.windows → atMostOneFocused (s.windows.map F))
        ∧ (zDistinct s.windows → zBounded s.windows s.topZIndex →
            zDistinct (s.windows.map F)
            ∧ zBounded (s.windows.map F) (s.topZIndex + 1)) := by
    intro F i hid hzm hzn hfm hfn
    refine ⟨idsNodup_map hid h1, fun _ => atMostOne_map_bump hfm hfn h1, ?_⟩
    intro hd hb
    have ht : ∀ x ∈ s.windows, x.zIndex < s.topZIndex + 1 :=
      fun x hx => Nat.lt_succ_of_le (hb x hx)
    exact ⟨zDistinct_map_bump hzm hzn ht h1 hd, zBounded_map_bump hzm hzn ht⟩
  have hkeep :
      ∀ F : WindowState → WindowState,
        (∀ x, (F x).id = x.id) →
        (∀ x, (F x).zIndex = x.zIndex) →
        (∀ x, (F x).isFocused = true → x.isFocused = true) →
        idsNodup (s.windows.map F)
        ∧ (atMostOneFocused s.windows → atMostOneFocused (s.windows.map F))
        ∧ (zDistinct s.windows → zBounded s.windows s.topZIndex →
            zDistinct (s.windows.map F)
            ∧ zBounded (s.windows.map F) s.topZIndex) := by
    intro F hid hz hfoc
    exact ⟨idsNodup_map hid h1, fun h2 => atMostOne_map_mono hfoc h2,
      fun hd hb => ⟨zDistinct_map_keepz hz hd, zBounded_map_keepz hz hb⟩⟩
  cases op with
  | openW w =>
    simp only [applyOp, openWindow]
    cases hfind : s.windows.find? (fun x => x.id == w.id) with
    | some ex =>
      by_cases hm : ex.isMinimized
      · simp only [hfind, hm, if_true]
        exact hbump _ w.id
          (fun x => by by_cases hx : x.id = w.id <;> simp [hx])
          (fun x hx => by simp [hx]) (fun x hx => by simp [hx])
          (fun x hx => by simp [hx]) (fun x hx => by simp [hx])
      · simp only [hfind, hm, if_false]
        exact hbump _ w.id
          (fun x => by by_cases hx : x.id = w.id <;> simp [hx])
          (fun x hx => by simp [hx]) (fun x hx => by simp [hx])
          (fun x hx => by simp [hx]) (fun x hx => by simp [hx])
    | none =>
      simp only [hfind]
      have hfresh : ∀ x ∈ s.windows, x.id ≠ w.id := by
        intro x hx
        have := List.find?_eq_none.mp hfind x hx
        simpa using this
      constructor
      · rw [idsNodup, List.pairwise_append]
        refine ⟨idsNodup_map (fun x => rfl) h1, by simp [idsNodup], ?_⟩
        intro a ha b hb
        rcases List.mem_map.mp ha with ⟨x, hx, rfl⟩
        rcases List.mem_singleton.mp hb with rfl
        simpa [WindowOpen.toState] using hfresh x hx
      constructor
      · intro _
        rw [atMostOneFocused, List.countP_append]
        have hzero : (s.windows.map fun x => { x with isFocused := false }).countP
            (fun w => w.isFocused) = 0 := by
          rw [List.countP_eq_zero]
          intro a ha
          rcases List.mem_map.mp ha with ⟨x, _, rfl⟩
          simp
        simp [hzero, WindowOpen.toState, List.countP_cons]
      · intro hd hb
        have ht : ∀ x ∈ s.windows, x.zIndex < s.topZIndex + 1 :=
          fun x hx => Nat.lt_succ_of_le (hb x hx)
        constructor
        · rw [zDistinct, List.pairwise_append]
          refine ⟨zDistinct_map_keepz (fun x => rfl) hd, by simp [zDistinct], ?_⟩
          intro a ha b hb'
          rcases List.mem_map.mp ha with ⟨x, hx, rfl⟩
          rcases List.mem_singleton.mp hb' with rfl
          simpa [WindowOpen.toState] using Nat.ne_of_lt (ht x hx)
        · intro a ha
          rcases List.mem_append.mp ha with ha' | ha'
          · rcases List.mem_map.mp ha' with ⟨x, hx, rfl⟩
            exact Nat.le_succ_of_le (hb x hx)
          · rcases List.mem_singleton.mp ha' with rfl
            simp [WindowOpen.toState]
  | closeW id =>
    simp only [applyOp, closeWindow]
    refine ⟨List.Pairwise.sublist (List.filter_sublist _) h1,
      fun h2 => Nat.le_trans (List.Sublist.countP_le _ (List.filter_sublist _)) h2,
      fun hd hb => ⟨List.Pairwise.sublist (List.filter_sublist _) hd, ?_⟩⟩
    intro a ha
    exact hb a (List.mem_of_mem_filter ha)
  | minimizeW id =>
    simp only [applyOp, minimizeWindow]
    exact hkeep _
      (fun x => by by_cases hx : x.id = id <;> simp [hx])
      (fun x => by by_cases hx : x.id = id <;> simp [hx])
      (fun x => by by_cases hx : x.id = id <;> simp [hx])
  | maximizeW id =>
    simp only [applyOp, maximizeWindow]
    exact hkeep _
      (fun x => by by_cases hx : x.id = id <;> simp [hx])
      (fun x => by by_cases hx : x.id = id <;> simp [hx])
      (fun x => by by_cases hx : x.id = id <;> simp [hx])
  | restoreW id =>
    simp only [applyOp, restoreWindow]
    exact hbump _ id
      (fun x => by by_cases hx : x.id = id <;> simp [hx])
      (fun x hx => by simp [hx]) (fun x hx => by simp [hx])
      (fun x hx => by simp [hx]) (fun x hx => by simp [hx])
  | focusW id =>
    simp only [applyOp, focusWindow]
    exact hbump _ id
      (fun x => by by_cases hx : x.id = id <;> simp [hx])
      (fun x hx => by simp [hx]) (fun x hx => by simp [hx])
      (fun x hx => by simp [hx]) (fun x hx => by simp [hx])
  | moveW id x y =>
    simp only [applyOp, updateWindowPosition]
    exact hkeep _
      (fun a => by by_cases ha : a.id = id <;> simp [ha])
      (fun a => by by_cases ha : a.id = id <;> simp [ha])
      (fun a => by by_cases ha : a.id = id <;> simp [ha])
  | resizeW id wd ht =>
    simp only [applyOp, updateWindowSize]
    exact hkeep _
      (fun a => by by_cases ha : a.id = id <;> simp [ha])
      (fun a => by by_cases ha : a.id = id <;> simp [ha])
      (fun a => by by_cases ha : a.id = id <;> simp [ha])

theorem applyOps_focus_inv (ops : List WMOp) :
    ∀ s : ManagerState, idsNodup s.windows → atMostOneFocused s.windows →
      idsNodup (applyOps s ops).windows ∧ atMostOneFocused (applyOps s ops).windows := by
  induction ops with
  | nil => exact fun s h1 h2 => ⟨h1, h2⟩
  | cons op rest ih =>
    intro s h1 h2
    rcases applyOp_inv s op h1 with ⟨h1', h2', _⟩
    exact ih (applyOp s op) h1' (h2' h2)

theorem applyOps_z_inv (ops : List WMOp) :
    ∀ s : ManagerState,
      idsNodup s.windows → zDistinct s.windows → zBounded s.windows s.topZIndex →
      idsNodup (applyOps s ops).windows ∧ zDistinct (applyOps s ops).windows
        ∧ zBounded (applyOps s ops).windows (applyOps s ops).topZIndex := by
  induction ops with
  | nil => exact fun s h1 hd hb => ⟨h1, hd, hb⟩
  | cons op rest ih =>
    intro s h1 hd hb
    rcases applyOp_inv s op h1 with ⟨h1', _, h3'⟩
    rcases h3' hd hb with ⟨hd', hb'⟩
    exact ih (applyOp s op) h1' hd' hb'

/-! ## Claim theorems: window manager -/

/-- A sample window record used for concrete check states. -/
def sampleWindow (id : String) (foc : Bool) (z : Nat) : WindowState :=
  { id := id, title := "t", icon := "i", x := 0, y := 0, width := 640, height := 480,
    minWidth := 100, minHeight := 80, isMinimized := false, isMaximized := false,
    content := "c", isFocused := foc, zIndex := z }

/-- C1 (counterexample): as stated over *any* starting registry, the claim
fails.  `maximizeWindow` does not touch focus flags, so starting from a
registry in which two windows are already focused, two remain focused after a
`maximize` operation; and with duplicated identifiers a single `focus`
operation focuses both copies at once. -/
theorem focus_invariant_counterexample :
    ¬ atMostOneFocused (applyOps
        { windows := [sampleWindow "a" true 1, sampleWindow "b" true 2], topZIndex := 100 }
        [.maximizeW "a"]).windows
    ∧ ¬ atMostOneFocused (applyOps
        { windows := [sampleWindow "a" false 1, sampleWindow "a" false 2], topZIndex := 100 }
        [.focusW "a"]).windows := by
  decide

/-- C1 (amended): for every sequence of window-manager operations applied to a
starting registry whose window identifiers are pairwise distinct and in which
at most one window is focused (in particular, any registry reachable from the
empty one), at most one window record is focused after each operation. -/
theorem focus_at_most_one (s : ManagerState) (ops : List WMOp)
    (h1 : idsNodup s.windows) (h2 : atMostOneFocused s.windows) :
    atMostOneFocused (applyOps s ops).windows :=
  (applyOps_focus_inv ops s h1 h2).2

theorem focus_at_most_one_witness :
    idsNodup ({ windows := [sampleWindow "a" true 5], topZIndex := 100 } : ManagerState).windows
    ∧ atMostOneFocused ({ windows := [sampleWindow "a" true 5], topZIndex := 100 } : ManagerState).windows
    ∧ atMostOneFocused (applyOps { windows := [sampleWindow "a" true 5], topZIndex := 100 }
        [.openW { id := "b", title := "t", icon := "i", x := 0, y := 0, width := 1, height := 1,
                  minWidth := 1, minHeight := 1, isMinimized := false, isMaximized := false,
                  content := "c" }, .focusW "a", .minimizeW "a"]).windows :=
  ⟨by decide, by decide,
    focus_at_most_one _ _ (by decide) (by decide)⟩

/-- C10: starting from the empty registry, every sequence of operations leaves
a registry whose stacking indices are pairwise distinct and all bounded by the
`topZIndex` counter. -/
theorem stacking_indices_distinct_and_bounded (ops : List WMOp) :
    zDistinct (applyOps initialState ops).windows
    ∧ zBounded (applyOps initialState ops).windows (applyOps initialState ops).topZIndex := by
  have h := applyOps_z_inv ops initialState (by simp [initialState, idsNodup])
    (by simp [initialState, zDistinct]) (by simp [initialState, zBounded])
  exact ⟨h.2.1, h.2.2⟩

/-- C2 (counterexample): the claim fails for `focus`.  On an id absent from
the registry, `focusWindow` still increments `topZIndex` (and clears every
focused flag), so the window-manager state is not left unchanged. -/
theorem unknown_id_noop_counterexample :
    (∀ w ∈ ({ windows := [sampleWindow "a" true 5], topZIndex := 100 } : ManagerState).windows,
      w.id ≠ "ghost")
    ∧ focusWindow "ghost" { windows := [sampleWindow "a" true 5], topZIndex := 100 }
        ≠ { windows := [sampleWindow "a" true 5], topZIndex := 100 } := by
  decide

/-- C2 (amended): for an id not present in the registry, `close`, `minimize`,
`maximize`, `move` and `resize` leave the entire window-manager state
unchanged; `restore` and `focus`, however, still increment the `topZIndex`
counter and clear every window's focused flag, leaving all other fields of
every record unchanged. -/
theorem unknown_id_ops (s : ManagerState) (id : String)
    (h : ∀ w ∈ s.windows, w.id ≠ id) :
    closeWindow id s = s
    ∧ minimizeWindow id s = s
    ∧ maximizeWindow id s = s
    ∧ (∀ x y, updateWindowPosition id x y s = s)
    ∧ (∀ wd ht, updateWindowSize id wd ht s = s)
    ∧ (restoreWindow id s).topZIndex = s.topZIndex + 1
    ∧ (restoreWindow id s).windows = s.windows.map (fun w => { w with isFocused := false })
    ∧ (focusWindow id s).topZIndex = s.topZIndex + 1
    ∧ (focusWindow id s).windows = s.windows.map (fun w => { w with isFocused := false }) := by
  refine ⟨?_, ?_, ?_, ?_, ?_, rfl, ?_, rfl, ?_⟩
  · have : s.windows.filter (fun w => w.id != id) = s.windows := by
      rw [List.filter_eq_self]
      intro a ha
      simpa using h a ha
    simp [closeWindow, this]
  · have : s.windows.map (fun w =>
        if w.id = id then { w with isMinimized := true, isFocused := false } else w)
        = s.windows :=
      map_eq_self_of_mem (fun a ha => if_neg (h a ha))
    simp [minimizeWindow, this]
  · have : s.windows.map (fun w =>
        if w.id = id then { w with isMaximized := !w.isMaximized } else w)
        = s.windows :=
      map_eq_self_of_mem (fun a ha => if_neg (h a ha))
    simp [maximizeWindow, this]
  · intro x y
    have : s.windows.map (fun w =>
        if w.id = id then { w with x := x, y := y } else w) = s.windows :=
      map_eq_self_of_mem (fun a ha => if_neg (h a ha))
    simp [updateWindowPosition, this]
  · intro wd ht
    have : s.windows.map (fun w =>
        if w.id = id then { w with width := wd, height := ht } else w) = s.windows :=
      map_eq_self_of_mem (fun a ha => if_neg (h a ha))
    simp [updateWindowSize, this]
  · exact map_congr_mem (fun a ha => if_neg (h a ha))
  · exact map_congr_mem (fun a ha => if_neg (h a ha))

theorem unknown_id_ops_witness :
    (∀ w ∈ ({ windows := [sampleWindow "a" true 5], topZIndex := 100 } : ManagerState).windows,
      w.id ≠ "zz")
    ∧ closeWindow "zz" { windows := [sampleWindow "a" true 5], topZIndex := 100 }
        = { windows := [sampleWindow "a" true 5], topZIndex := 100 } :=
  ⟨by decide,
    (unknown_id_ops { windows := [sampleWindow "a" true 5], topZIndex := 100 } "zz"
      (by decide)).1⟩

/-- C8: `closeWindow id` removes exactly the records carrying `id`: no window
with that id survives, the surviving registry is a sub-sequence of the old one
containing precisely the records whose id differs, and closing twice equals
closing once. -/
theorem close_removes_and_idempotent (s : ManagerState) (id : String) :
    (∀ w ∈ (closeWindow id s).windows, w.id ≠ id)
    ∧ (∀ w, w ∈ (closeWindow id s).windows ↔ w ∈ s.windows ∧ w.id ≠ id)
    ∧ (closeWindow id s).windows.Sublist s.windows
    ∧ closeWindow id (closeWindow id s) = closeWindow id s := by
  refine ⟨?_, ?_, List.filter_sublist _, ?_⟩
  · intro w hw
    have := (List.mem_filter.mp hw).2
    simpa using this
  · intro w
    rw [closeWindow]
    simp [List.mem_filter]
  · have : ((s.windows.filter (fun w => w.id != id)).filter (fun w => w.id != id))
        = s.windows.filter (fun w => w.id != id) := by
      rw [List.filter_eq_self]
      intro a ha
      exact (List.mem_filter.mp ha).2
    simp [closeWindow, this]

/-- An `openWindow` payload used for concrete check states. -/
def openPayload (id : String) : WindowOpen :=
  { id := id, title := "t", icon := "i", x := 0, y := 0, width := 640, height := 480,
    minWidth := 100, minHeight := 80, isMinimized := false, isMaximized := false,
    content := "c" }

/-- A registry with a stacking index above the counter (unreachable, but the
claim quantifies over every registry). -/
def highZState : ManagerState :=
  { windows := [sampleWindow "a" false 50, sampleWindow "b" false 1000], topZIndex := 100 }

/-- A reachable-shaped registry with indices below the counter. -/
def lowZState : ManagerState :=
  { windows := [sampleWindow "a" false 50, sampleWindow "b" false 60], topZIndex := 100 }

/-- C7 (counterexample): over arbitrary registries the "topmost" part of the
claim fails.  If some other window already carries a stacking index above the
`topZIndex` counter (which cannot happen in reachable states, but the claim
quantifies over every registry), re-opening window "a" assigns it
`topZIndex + 1`, which stays below that other window. -/
theorem reopen_tops_counterexample :
    ¬ ∃ w' ∈ (openWindow (openPayload "a") highZState).windows,
      w'.id = (sampleWindow "a" false 50).id
      ∧ w'.x = (sampleWindow "a" false 50).x
      ∧ w'.y = (sampleWindow "a" false 50).y
      ∧ w'.width = (sampleWindow "a" false 50).width
      ∧ w'.height = (sampleWindow "a" false 50).height
      ∧ w'.minWidth = (sampleWindow "a" false 50).minWidth
      ∧ w'.minHeight = (sampleWindow "a" false 50).minHeight
      ∧ ∀ y ∈ (openWindow (openPayload "a") highZState).windows,
          y.id ≠ (sampleWindow "a" false 50).id → y.zIndex < w'.zIndex := by
  decide

/-- C7 (amended): in every registry whose stacking indices are bounded by the
`topZIndex` counter (true of all reachable states), re-opening an already
present, non-minimized window leaves its geometry unchanged and raises it
strictly above every other window. -/
theorem reopen_preserves_geometry_tops (s : ManagerState) (w : WindowOpen)
    (w0 : WindowState) (hmem : w0 ∈ s.windows) (hid : w0.id = w.id)
    (hmin : w0.isMinimized = false) (hb : zBounded s.windows s.topZIndex) :
    ∃ w' ∈ (openWindow w s).windows,
      w'.id = w0.id ∧ w'.x = w0.x ∧ w'.y = w0.y ∧ w'.width = w0.width
      ∧ w'.height = w0.height ∧ w'.minWidth = w0.minWidth ∧ w'.minHeight = w0.minHeight
      ∧ ∀ y ∈ (openWindow w s).windows, y.id ≠ w0.id → y.zIndex < w'.zIndex := by
  have hsome : (s.windows.find? (fun x => x.id == w.id)).isSome := by
    rw [List.find?_isSome]
    exact ⟨w0, hmem, by simp [hid]⟩
  cases hfind : s.windows.find? (fun x => x.id == w.id) with
  | none => rw [hfind] at hsome; simp at hsome
  | some ex =>
    by_cases hm : ex.isMinimized
    · simp only [openWindow, hfind, hm, if_true]
      refine ⟨_, List.mem_map_of_mem _ hmem, ?_⟩
      rw [if_pos hid]
      refine ⟨rfl, rfl, rfl, rfl, rfl, rfl, rfl, ?_⟩
      intro y hy hne
      rcases List.mem_map.mp hy with ⟨x, hx, rfl⟩
      by_cases hxi : x.id = w.id
      · rw [if_pos hxi] at hne
        exact absurd (hxi.trans hid.symm) (by simpa using hne)
      · rw [if_neg hxi]
        exact Nat.lt_succ_of_le (hb x hx)
    · simp only [openWindow, hfind, hm, if_false]
      refine ⟨_, List.mem_map_of_mem _ hmem, ?_⟩
      rw [if_pos hid]
      refine ⟨rfl, rfl, rfl, rfl, rfl, rfl, rfl, ?_⟩
      intro y hy hne
      rcases List.mem_map.mp hy with ⟨x, hx, rfl⟩
      by_cases hxi : x.id = w.id
      · rw [if_pos hxi] at hne
        exact absurd (hxi.trans hid.symm) (by simpa using hne)
      · rw [if_neg hxi]
        exact Nat.lt_succ_of_le (hb x hx)

theorem reopen_preserves_geometry_tops_witness :
    (sampleWindow "a" false 50 ∈ lowZState.windows)
    ∧ zBounded lowZState.windows lowZState.topZIndex
    ∧ ∃ w' ∈ (openWindow (openPayload "a") lowZState).windows,
      w'.id = (sampleWindow "a" false 50).id
      ∧ w'.x = (sampleWindow "a" false 50).x
      ∧ w'.y = (sampleWindow "a" false 50).y
      ∧ w'.width = (sampleWindow "a" false 50).width
      ∧ w'.height = (sampleWindow "a" false 50).height
      ∧ w'.minWidth = (sampleWindow "a" false 50).minWidth
      ∧ w'.minHeight = (sampleWindow "a" false 50).minHeight
      ∧ ∀ y ∈ (openWindow (openPayload "a") lowZState).windows,
          y.id ≠ (sampleWindow "a" false 50).id → y.zIndex < w'.zIndex :=
  ⟨by decide, by decide,
    reopen_preserves_geometry_tops lowZState (openPayload "a") (sampleWindow "a" false 50)
      (by decide) (by decide) (by decide) (by decide)⟩

/-! ## Chat relay endpoint (the `POST` handler) -/

/-- Message roles accepted by the endpoint (`'user' | 'assistant'`). -/
inductive Role where
  | user
  | assistant
  deriving DecidableEq, Repr

/-- `interface MessageInput { role; content }`. -/
structure MessageInput where
  role : Role
  content : String
  deriving DecidableEq, Repr

/-- The `SYSTEM_PROMPT` template literal, verbatim. -/
def SYSTEM_PROMPT : String :=
  "You are a helpful personal assistant designed to help with general research, questions, and tasks.\n\nYour role is to:\n- Answer questions on any topic accurately and thoroughly\n- Help with research by searching the web for current information\n- Assist with writing, editing, and brainstorming\n- Provide explanations and summaries of complex topics\n- Help solve problems and think through decisions\n\nGuidelines:\n- Be friendly, clear, and conversational\n- Use web search when you need current information, facts you're unsure about, or real-time data\n- Keep responses concise but complete - expand when the topic warrants depth\n- Use markdown formatting when it helps readability (bullet points, code blocks, etc.)\n- Be honest when you don't know something and offer to search for answers"

/-- One rendered turn: `` `${m.role === 'user' ? 'User' : 'Assistant'}: ${m.content}` ``. -/
def renderTurn (m : MessageInput) : String :=
  (if m.role = .user then "User" else "Assistant") ++ ": " ++ m.content

/-- `Array.prototype.join(sep)` over a list of strings. -/
def joinSep (sep : String) : List String → String
  | [] => ""
  | [a] => a
  | a :: b :: rest => a ++ sep ++ joinSep sep (b :: rest)

/-- `messages.slice(0, -1).map(renderTurn).join('\n\n')`. -/
def conversationContext (messages : List MessageInput) : String :=
  joinSep "\n\n" (messages.dropLast.map renderTurn)

/-- The `fullPrompt` construction: the ternary on the truthiness of
`conversationContext` (empty string is falsy). -/
def fullPrompt (messages : List MessageInput) (lastUserContent : String) : String :=
  let ctx := conversationContext messages
  if ctx = "" then
    SYSTEM_PROMPT ++ "\n\nUser: " ++ lastUserContent
  else
    SYSTEM_PROMPT ++ "\n\nPrevious conversation:\n" ++ ctx ++ "\n\nUser: " ++ lastUserContent

/-- The `messages` field of the parsed request body: `invalid` covers a
missing field, `null`, or any non-array value (the
`!messages || !Array.isArray(messages)` check); otherwise the array. -/
inductive MessagesField where
  | invalid
  | array (msgs : List MessageInput)
  deriving DecidableEq, Repr

/-- What the handler returns: a JSON `{error}` response with a status code, or
a 200 `text/event-stream` response whose events are driven by the given
prompt. -/
inductive RelayResponse where
  | jsonError (status : Nat) (error : String)
  | eventStream (prompt : String)
  deriving DecidableEq, Repr

/-- The validation and prompt-building part of `POST`: reject a missing or
non-array `messages`; otherwise find the last user-role entry
(`messages.filter(m => m.role === 'user').pop()`), reject when there is none,
and otherwise stream with the constructed prompt. -/
def POSTrespond : MessagesField → RelayResponse
  | .invalid => .jsonError 400 "Messages array is required"
  | .array msgs =>
    match (msgs.filter (fun m => m.role == .user)).getLast? with
    | none => .jsonError 400 "No user message found"
    | some lastUserMessage => .eventStream (fullPrompt msgs lastUserMessage.content)

/-- Whether the handler reaches the upstream `query(...)` call: it does so
exactly when it answers with the streaming response. -/
def queryInvoked (b : MessagesField) : Bool :=
  match POSTrespond b with
  | .eventStream _ => true
  | .jsonError _ _ => false

/-- A content block of an upstream assistant message; only `tool_use` blocks
are inspected. -/
inductive ContentBlock where
  | toolUse (name : String)
  | otherBlock
  deriving DecidableEq, Repr

/-- One message from the agent SDK iterator, abstracted to exactly the shapes
the handler distinguishes. -/
inductive AgentMessage where
  | streamTextDelta (text : String)
  | streamOther
  | assistant (blocks : List ContentBlock)
  | toolProgress (tool : String) (elapsed : Int)
  | resultSuccess
  | resultError
  | otherMessage
  deriving DecidableEq, Repr

/-- The payload of one relayed `data:` line (`type` in
{text_delta, tool_start, tool_progress, done, error}). -/
inductive RelayEvent where
  | textDelta (text : String)
  | toolStart (tool : String)
  | toolProgress (tool : String) (elapsed : Int)
  | done
  | error (message : String)
  deriving DecidableEq, Repr

/-- One emitted line: `data: <json>` with a typed payload, or the literal
sentinel line `data: [DONE]`. -/
inductive SSELine where
  | data (e : RelayEvent)
  | doneSentinel
  deriving DecidableEq, Repr

/-- The lines the loop body enqueues for one upstream message. -/
def emitMessage : AgentMessage → List SSELine
  | .streamTextDelta t => [.data (.textDelta t)]
  | .streamOther => []
  | .assistant blocks => blocks.filterMap (fun b =>
      match b with
      | .toolUse name => some (.data (.toolStart name))
      | .otherBlock => none)
  | .toolProgress tool elapsed => [.data (.toolProgress tool elapsed)]
  | .resultSuccess => [.data .done]
  | .resultError => [.data (.error "Query did not complete successfully")]
  | .otherMessage => []

/-- How far iterating the upstream stream got: consumed to completion, or an
exception thrown after a prefix of the messages was handled. -/
inductive AgentRun where
  | completed (msgs : List AgentMessage)
  | threw (consumed : List AgentMessage)
  deriving DecidableEq, Repr

/-- Everything the `ReadableStream` `start` callback enqueues before closing
the controller: on normal completion, the per-message events followed by the
`data: [DONE]` sentinel; on a thrown exception, the events of the consumed
prefix followed by a `data:` error event (the `catch` branch closes the
controller without the sentinel). -/
def relayStream : AgentRun → List SSELine
  | .completed msgs => msgs.flatMap emitMessage ++ [.doneSentinel]
  | .threw consumed => consumed.flatMap emitMessage ++ [.data (.error "Stream error occurred")]

/-- C3 (counterexample): a request accepted for streaming whose upstream
iteration throws immediately produces a body whose last line is the error
event, not the sentinel `data: [DONE]`. -/
theorem stream_done_counterexample :
    POSTrespond (.array [⟨.user, "hi"⟩]) = .eventStream (fullPrompt [⟨.user, "hi"⟩] "hi")
    ∧ (relayStream (.threw [])).getLast? ≠ some .doneSentinel :=
  ⟨rfl, by decide⟩

/-- C3 (amended): for every request accepted for streaming, the emitted body
ends with the literal `data: [DONE]` line when the upstream stream is consumed
to completion; when an exception is thrown while streaming, the body ends with
a `data:` error event instead of the sentinel. -/
theorem stream_termination (b : MessagesField) (p : String)
    (hb : POSTrespond b = .eventStream p) (msgs consumed : List AgentMessage) :
    (relayStream (.completed msgs)).getLast? = some .doneSentinel
    ∧ (relayStream (.threw consumed)).getLast?
        = some (.data (.error "Stream error occurred")) := by
  constructor <;> simp [relayStream]

theorem stream_termination_witness :
    (relayStream (.completed [])).getLast? = some .doneSentinel
    ∧ (relayStream (.threw [])).getLast? = some (.data (.error "Stream error occurred")) :=
  stream_termination (.array [⟨.user, "hi"⟩]) _ rfl [] []

/-- C4: a missing/non-array `messages` field, an empty array, and an array
with no user-role entry all get a 400 response with an `error` payload, and
the upstream agent query is never invoked in those cases. -/
theorem invalid_request_400 (msgs : List MessageInput)
    (h : ∀ m ∈ msgs, m.role ≠ .user) :
    (∃ e, POSTrespond .invalid = .jsonError 400 e)
    ∧ (∃ e, POSTrespond (.array msgs) = .jsonError 400 e)
    ∧ queryInvoked .invalid = false
    ∧ queryInvoked (.array msgs) = false := by
  have hf : msgs.filter (fun m => m.role == .user) = [] := by
    rw [List.filter_eq_nil_iff]
    intro a ha
    simpa using h a ha
  refine ⟨⟨"Messages array is required", rfl⟩, ⟨"No user message found", ?_⟩, rfl, ?_⟩
  · simp [POSTrespond, hf]
  · simp [queryInvoked, POSTrespond, hf]

theorem invalid_request_400_witness :
    (∀ m ∈ [(⟨.assistant, "yo"⟩ : MessageInput)], m.role ≠ .user)
    ∧ (∃ e, POSTrespond (.array []) = .jsonError 400 e)
    ∧ (∃ e, POSTrespond (.array [⟨.assistant, "yo"⟩]) = .jsonError 400 e) :=
  ⟨by decide, (invalid_request_400 [] (by decide)).2.1,
    (invalid_request_400 [⟨.assistant, "yo"⟩] (by decide)).2.1⟩

/-! ### The prompt as the claim describes it (C6) -/

/-- Drop the first user-role entry of a list (helper for `removeLastUser`). -/
def removeFirstUser : List MessageInput → List MessageInput
  | [] => []
  | m :: rest => if m.role = .user then rest else m :: removeFirstUser rest

/-- The claim's "prior turns": the messages with the final user turn (the last
user-role entry) removed. -/
def removeLastUser (msgs : List MessageInput) : List MessageInput :=
  (removeFirstUser msgs.reverse).reverse

/-- The prompt as the claim describes it: the fixed instruction string, the
prior turns each rendered exactly once as a "Role: content" line, then the
final user turn's content appended as the last "User: ..." line. -/
def promptSpec (prior : List MessageInput) (finalUserContent : String) : String :=
  if prior.isEmpty then
    SYSTEM_PROMPT ++ "\n\nUser: " ++ finalUserContent
  else
    SYSTEM_PROMPT ++ "\n\nPrevious conversation:\n"
      ++ joinSep "\n\n" (prior.map renderTurn) ++ "\n\nUser: " ++ finalUserContent

theorem string_length_zero_eq_empty {s : String} (h : s.length = 0) : s = "" := by
  cases s with
  | mk data =>
    cases data with
    | nil => rfl
    | cons c cs => simp [String.length] at h

theorem renderTurn_ne_empty (m : MessageInput) : renderTurn m ≠ "" := by
  intro hemp
  have hlen := congrArg String.length hemp
  rw [renderTurn] at hlen
  cases hm : m.role <;> rw [hm] at hlen <;>
    simp [String.length_append] at hlen <;>
    exact absurd hlen.1 (by decide)

theorem joinSep_cons_ne_empty (sep a : String) (rest : List String) (ha : a ≠ "") :
    joinSep sep (a :: rest) ≠ "" := by
  cases rest with
  | nil => simpa [joinSep] using ha
  | cons b r =>
    intro hemp
    have hlen := congrArg String.length hemp
    rw [joinSep, String.length_append, String.length_append] at hlen
    have h0 : ("" : String).length = 0 := rfl
    rw [h0] at hlen
    exact ha (string_length_zero_eq_empty (by omega))

set_option maxRecDepth 40000 in
/-- C6 (counterexample): on the valid request `[user "a", assistant "b"]` the
handler's prompt repeats the turn "User: a" — once inside the rendered prior
turns (`messages.slice(0, -1)` keeps the last *user* entry when the last
message is assistant-authored) and once as the appended final user line — so
it differs from the claim's prompt, which includes each turn once. -/
theorem prompt_duplicate_counterexample :
    POSTrespond (.array [⟨.user, "a"⟩, ⟨.assistant, "b"⟩])
      ≠ .eventStream
          (promptSpec (removeLastUser [⟨.user, "a"⟩, ⟨.assistant, "b"⟩]) "a") := by
  decide

/-- C6 (amended): for every valid request whose *last* message is user-role
(the shape the chat client always sends), the prompt equals the fixed
instruction string, followed by the prior turns (all messages but the last)
rendered as "Role: content" lines, followed by the final user turn's content
as the last "User: ..." line, with no turn included twice. -/
theorem prompt_construction (l : List MessageInput) (m : MessageInput)
    (hm : m.role = .user) :
    POSTrespond (.array (l ++ [m])) = .eventStream (promptSpec l m.content) := by
  have hfil : (l ++ [m]).filter (fun x => x.role == .user)
      = l.filter (fun x => x.role == .user) ++ [m] := by
    rw [List.filter_append]
    simp [hm]
  have hlast : ((l ++ [m]).filter (fun x => x.role == .user)).getLast? = some m := by
    rw [hfil, List.getLast?_concat]
  simp only [POSTrespond, hlast]
  cases l with
  | nil => simp [fullPrompt, conversationContext, promptSpec, joinSep]
  | cons a rest =>
    have hctx : conversationContext (a :: rest ++ [m])
        = joinSep "\n\n" ((a :: rest).map renderTurn) := by
      rw [conversationContext,
        show a :: rest ++ [m] = (a :: rest) ++ [m] from rfl, List.dropLast_concat]
    have hne : joinSep "\n\n" ((a :: rest).map renderTurn) ≠ "" := by
      rw [List.map_cons]
      exact joinSep_cons_ne_empty _ _ _ (renderTurn_ne_empty a)
    simp only [fullPrompt]
    rw [hctx, if_neg hne]
    simp [promptSpec]

theorem prompt_construction_witness :
    POSTrespond (.array ([⟨.assistant, "b"⟩] ++ [⟨.user, "a"⟩]))
      = .eventStream (promptSpec [⟨.assistant, "b"⟩] "a") :=
  prompt_construction [⟨.assistant, "b"⟩] ⟨.user, "a"⟩ rfl

/-! ## Chat client stream consumer (`handleSubmit`) -/

/-- A chat message as kept in the client's `messages` state. -/
structure Message where
  id : String
  role : Role
  content : String
  timestamp : Nat
  deriving DecidableEq, Repr

/-- `ToolStatus.status : 'running' | 'complete'`. -/
inductive ToolRun where
  | running
  | complete
  deriving DecidableEq, Repr

/-- The transient "tool in use" indicator. -/
structure ToolStatus where
  name : String
  status : ToolRun
  elapsed : Option Int
  deriving DecidableEq, Repr

/-- One received line, as the client's loop body classifies it: a line not
starting with `data: `; the `data: [DONE]` sentinel (skipped by `continue`); a
data line whose payload fails `JSON.parse` (the catch swallows it); a data
line parsing to a JSON object whose `type` is none of the five known kinds; or
a data line carrying one of the relayed events. -/
inductive ClientLine where
  | notData
  | doneSentinel
  | malformed
  | otherJson
  | event (e : RelayEvent)
  deriving DecidableEq, Repr

/-- The client state mutated by the stream-read loop: the `messages` list, the
`currentTool` indicator, and the local `streamingContent` accumulator. -/
structure ChatState where
  messages : List Message
  currentTool : Option ToolStatus
  streamingContent : String
  deriving DecidableEq, Repr

/-- The replacement content installed on an in-band `error` event. -/
def streamErrorText : String :=
  "Sorry, I encountered an error processing your request."

/-- The effect of one received line on the client state (`sid` is the id of
the placeholder assistant message appended at stream start). -/
def processLine (sid : String) (st : ChatState) : ClientLine → ChatState
  | .notData => st
  | .doneSentinel => st
  | .malformed => st
  | .otherJson => st
  | .event (.textDelta t) =>
    let newContent := st.streamingContent ++ t
    { messages := st.messages.map (fun msg =>
        if msg.id = sid then { msg with content := newContent } else msg),
      currentTool := none,
      streamingContent := newContent }
  | .event (.toolStart tool) =>
    { st with currentTool := some { name := tool, status := .running, elapsed := none } }
  | .event (.toolProgress _tool elapsed) =>
    { st with currentTool := st.currentTool.map (fun t => { t with elapsed := some elapsed }) }
  | .event .done => { st with currentTool := none }
  | .event (.error _msg) =>
    { messages := st.messages.map (fun msg =>
        if msg.id = sid then { msg with content := streamErrorText } else msg),
      currentTool := none,
      streamingContent := streamErrorText }

/-- Fold the loop body over the received lines in arrival order. -/
def processStream (sid : String) (st : ChatState) (lines : List ClientLine) : ChatState :=
  lines.foldl (processLine sid) st

/-- The whole streaming phase: consume the lines, then remove the still-empty
placeholder (`if (!streamingContent) setMessages(prev.filter(...))`). -/
def runStream (sid : String) (st : ChatState) (lines : List ClientLine) : ChatState :=
  if (processStream sid st lines).streamingContent = "" then
    { processStream sid st lines with
      messages := (processStream sid st lines).messages.filter (fun msg => msg.id != sid) }
  else
    processStream sid st lines

/-- Client state right after the empty placeholder assistant message is
appended: prior messages plus the placeholder (fresh id `sid`), no tool
indicator, empty accumulator. -/
def initStream (prior : List Message) (sid : String) (now : Nat) : ChatState :=
  { messages := prior ++ [{ id := sid, role := .assistant, content := "", timestamp := now }],
    currentTool := none,
    streamingContent := "" }

/-- Holds when any text-delta event on this line carries empty text. -/
def EmptyDeltaOnly : ClientLine → Prop
  | .event (.textDelta t) => t = ""
  | _ => True

instance : DecidablePred EmptyDeltaOnly := fun l =>
  match l with
  | .notData => isTrue trivial
  | .doneSentinel => isTrue trivial
  | .malformed => isTrue trivial
  | .otherJson => isTrue trivial
  | .event (.textDelta t) => inferInstanceAs (Decidable (t = ""))
  | .event (.toolStart _) => isTrue trivial
  | .event (.toolProgress _ _) => isTrue trivial
  | .event .done => isTrue trivial
  | .event (.error _) => isTrue trivial

/-- Holds when the line is not an in-band error event. -/
def NoErrorEvent : ClientLine → Prop
  | .event (.error _) => False
  | _ => True

instance : DecidablePred NoErrorEvent := fun l =>
  match l with
  | .notData => isTrue trivial
  | .doneSentinel => isTrue trivial
  | .malformed => isTrue trivial
  | .otherJson => isTrue trivial
  | .event (.textDelta _) => isTrue trivial
  | .event (.toolStart _) => isTrue trivial
  | .event (.toolProgress _ _) => isTrue trivial
  | .event .done => isTrue trivial
  | .event (.error _) => isFalse id

/-- Loop invariant for C5: the accumulator is empty or holds the error text,
and every message under the placeholder id holds exactly the accumulator. -/
def StreamQ (sid : String) (st : ChatState) : Prop :=
  (st.streamingContent = "" ∨ st.streamingContent = streamErrorText)
  ∧ ∀ msg ∈ st.messages, msg.id = sid → msg.content = st.streamingContent

theorem processStream_empty_sc (sid : String) (lines : List ClientLine) :
    ∀ st : ChatState,
      (∀ l ∈ lines, EmptyDeltaOnly l) → (∀ l ∈ lines, NoErrorEvent l) →
      st.streamingContent = "" → (processStream sid st lines).streamingContent = "" := by
  induction lines with
  | nil => exact fun st _ _ h => h
  | cons l rest ih =>
    intro st hd he hsc
    refine ih (processLine sid st l)
      (fun x hx => hd x (by simp [hx])) (fun x hx => he x (by simp [hx])) ?_
    have hdl := hd l (by simp)
    have hel := he l (by simp)
    cases l with
    | notData => exact hsc
    | doneSentinel => exact hsc
    | malformed => exact hsc
    | otherJson => exact hsc
    | event e =>
      cases e with
      | textDelta t =>
        have ht : t = "" := hdl
        subst ht
        show st.streamingContent ++ "" = ""
        rw [String.append_empty]
        exact hsc
      | toolStart tool => exact hsc
      | toolProgress tool el => exact hsc
      | done => exact hsc
      | error m' => exact absurd hel (by simp [NoErrorEvent])

theorem processStream_Q (sid : String) (lines : List ClientLine) :
    ∀ st : ChatState, (∀ l ∈ lines, EmptyDeltaOnly l) → StreamQ sid st →
      StreamQ sid (processStream sid st lines) := by
  induction lines with
  | nil => exact fun st _ h => h
  | cons l rest ih =>
    intro st hd hq
    refine ih (processLine sid st l) (fun x hx => hd x (by simp [hx])) ?_
    have hdl := hd l (by simp)
    rcases hq with ⟨hsc, hmsg⟩
    cases l with
    | notData => exact ⟨hsc, hmsg⟩
    | doneSentinel => exact ⟨hsc, hmsg⟩
    | malformed => exact ⟨hsc, hmsg⟩
    | otherJson => exact ⟨hsc, hmsg⟩
    | event e =>
      cases e with
      | textDelta t =>
        have ht : t = "" := hdl
        subst ht
        constructor
        · show st.streamingContent ++ "" = "" ∨ st.streamingContent ++ "" = streamErrorText
          rw [String.append_empty]
          exact hsc
        · intro msg hmem hid
          show msg.content = st.streamingContent ++ ""
          rcases List.mem_map.mp hmem with ⟨x, hx, rfl⟩
          by_cases hxi : x.id = sid
          · simp [hxi]
          · rw [if_neg hxi] at hid
            exact absurd hid hxi
      | toolStart tool => exact ⟨hsc, hmsg⟩
      | toolProgress tool el => exact ⟨hsc, hmsg⟩
      | done => exact ⟨hsc, hmsg⟩
      | error m' =>
        constructor
        · exact Or.inr rfl
        · intro msg hmem hid
          show msg.content = streamErrorText
          rcases List.mem_map.mp hmem with ⟨x, hx, rfl⟩
          by_cases hxi : x.id = sid
          · simp [hxi]
          · rw [if_neg hxi] at hid
            exact absurd hid hxi

/-- C5 (counterexample): the claim's "removes the placeholder" fails when an
in-band error event arrives and no text delta was applied: the placeholder is
kept (carrying the substituted error text), not removed. -/
theorem placeholder_removed_counterexample :
    (∀ l ∈ [ClientLine.event (.error "boom")], EmptyDeltaOnly l)
    ∧ ¬ (∀ msg ∈ (runStream "s" (initStream [] "s" 0)
          [ClientLine.event (.error "boom")]).messages, msg.id ≠ "s") := by
  decide

/-- C5 (amended): when every applied text delta carries empty text, then — if
additionally no error event is applied — the placeholder assistant message is
removed entirely; and in every case any surviving message under the
placeholder id carries the error text, so no empty assistant message with the
placeholder id remains after the stream ends. -/
theorem placeholder_no_empty_bubble (prior : List Message) (sid : String) (now : Nat)
    (lines : List ClientLine)
    (hfresh : ∀ msg ∈ prior, msg.id ≠ sid)
    (hdelta : ∀ l ∈ lines, EmptyDeltaOnly l) :
    ((∀ l ∈ lines, NoErrorEvent l) →
      ∀ msg ∈ (runStream sid (initStream prior sid now) lines).messages, msg.id ≠ sid)
    ∧ (∀ msg ∈ (runStream sid (initStream prior sid now) lines).messages,
        msg.id = sid → msg.content = streamErrorText) := by
  have hQ0 : StreamQ sid (initStream prior sid now) := by
    constructor
    · exact Or.inl rfl
    · intro msg hmem hid
      rcases List.mem_append.mp hmem with h | h
      · exact absurd hid (hfresh msg h)
      · rcases List.mem_singleton.mp h with rfl
        rfl
  have hQ := processStream_Q sid lines (initStream prior sid now) hdelta hQ0
  constructor
  · intro hne msg hmem
    have hsc : (processStream sid (initStream prior sid now) lines).streamingContent = "" :=
      processStream_empty_sc sid lines _ hdelta hne rfl
    rw [runStream, if_pos hsc] at hmem
    have := (List.mem_filter.mp hmem).2
    simpa using this
  · intro msg hmem hid
    by_cases hsc : (processStream sid (initStream prior sid now) lines).streamingContent = ""
    · rw [runStream, if_pos hsc] at hmem
      have := (List.mem_filter.mp hmem).2
      exact absurd hid (by simpa using this)
    · rw [runStream, if_neg hsc] at hmem
      have hc := hQ.2 msg hmem hid
      rcases hQ.1 with h | h
      · exact absurd h hsc
      · rw [hc, h]

theorem placeholder_no_empty_bubble_witness :
    (∀ msg ∈ ([] : List Message), msg.id ≠ "s")
    ∧ (∀ l ∈ [ClientLine.event (.toolStart "WebSearch"), ClientLine.event (.textDelta "")],
        EmptyDeltaOnly l)
    ∧ ((∀ l ∈ [ClientLine.event (.toolStart "WebSearch"), ClientLine.event (.textDelta "")],
        NoErrorEvent l) →
      ∀ msg ∈ (runStream "s" (initStream [] "s" 0)
          [ClientLine.event (.toolStart "WebSearch"),
            ClientLine.event (.textDelta "")]).messages, msg.id ≠ "s")
    ∧ (∀ msg ∈ (runStream "s" (initStream [] "s" 0)
          [ClientLine.event (.toolStart "WebSearch"),
            ClientLine.event (.textDelta "")]).messages,
        msg.id = "s" → msg.content = streamErrorText) :=
  ⟨by decide, by decide,
    (placeholder_no_empty_bubble [] "s" 0
      [ClientLine.event (.toolStart "WebSearch"), ClientLine.event (.textDelta "")]
      (by decide) (by decide)).1,
    (placeholder_no_empty_bubble [] "s" 0
      [ClientLine.event (.toolStart "WebSearch"), ClientLine.event (.textDelta "")]
      (by decide) (by decide)).2⟩

/-- C9: a `data:` line whose payload is not valid JSON (and is not the
sentinel) leaves the message list and the current tool status unchanged, and
the remaining lines are processed exactly as if the malformed line were
absent — the read loop is never aborted. -/
theorem malformed_line_ignored (sid : String) (st : ChatState)
    (pre post : List ClientLine) :
    (processLine sid st .malformed).messages = st.messages
    ∧ (processLine sid st .malformed).currentTool = st.currentTool
    ∧ runStream sid st (pre ++ .malformed :: post) = runStream sid st (pre ++ post) := by
  refine ⟨rfl, rfl, ?_⟩
  have hfold : processStream sid st (pre ++ .malformed :: post)
      = processStream sid st (pre ++ post) := by
    rw [processStream, processStream, List.foldl_append, List.foldl_append, List.foldl_cons]
    rfl
  rw [runStream, runStream, hfold]

end SentryOS
